import Mathlib

/-
Verification of the SolidFS natural-language specification against a shallow
embedding of the SolidFS sources (a FUSE driver presenting a Solid Pod as a
POSIX file system).

Conventions of the embedding:
* Python byte strings (bytes / bytearray) are `List Nat`, each element a byte.
* Python strings used only as opaque identifiers (URIs, content types) are
  Lean `String`; file-system paths and URIs that are concatenated and split
  character by character are `List Char` so that the character-level slicing
  done by the source (`lstrip`, `split`, `rstrip`, `+`) is literal.
* Mutable per-object state is passed explicitly; dictionaries keyed by URI
  become functions `Uri -> Option _` updated pointwise.
* HTTP traffic is represented by oracles: the status code and body the server
  would answer are extra parameters; the requests issued are returned as a log.
* A raised Python exception is the `Except` error channel: `PyExn.http s`
  stands for an `HTTPStatusCodeException` (src/src/http_exception.py)
  carrying HTTP status `s`, while `PyExn.generic` stands for any other
  exception.
-/

namespace SolidFS

/-! ## errno constants (Linux, asm-generic), as used via the `errno` module -/

def ENOENT : Int := 2
def EAGAIN : Int := 11
def EACCES : Int := 13
def EFAULT : Int := 14
def ENOTDIR : Int := 20
def EINVAL : Int := 22
def ENAMETOOLONG : Int := 36
def EBADMSG : Int := 74
def EREMCHG : Int := 78
def ENOTSUP : Int := 95

/-! ## src/src/http_to_errno.py -/

/-- Embedding of `HTTPToErrNo.http_to_errno`.  The source is a Python `match`
statement.  Its arm `case 401, 403:` is a two-element *sequence pattern*
(matching only the tuple `(401, 403)`), not the or-pattern `case 401 | 403:`;
an `int` subject never matches it, so its body `return errno.EACCES` is
unreachable and the statuses 401 and 403 fall through to the generic
`400 <= num < 500` arm.  The embedding reproduces that behaviour. -/
def http_to_errno (status : Int) : Int :=
  if 100 ≤ status ∧ status < 200 then 0
  else if 200 ≤ status ∧ status < 300 then 0
  else if 300 ≤ status ∧ status < 400 then EREMCHG
  else if status = 404 then ENOENT
  else if status = 406 then ENOTSUP
  else if 400 ≤ status ∧ status < 500 then EINVAL
  else if 500 ≤ status ∧ status < 600 then EAGAIN
  else EBADMSG

/-! ## Exceptions (src/src/http_exception.py) -/

/-- A raised exception as observed at the adapter boundary:
`http s` is an `HTTPStatusCodeException` whose `http_response_code` is `s`
(this covers `RedirectionException`, `UnauthorizedException` (401),
`ForbiddenException` (403), `NotFoundException` (404),
`NotAcceptableException` (406), `BadRequestException`, `ServerException`);
`generic` is any exception that is not an `HTTPStatusCodeException`. -/
inductive PyExn where
  | http (status : Int)
  | generic
deriving DecidableEq, Repr

/-- Embedding of `HTTPStatusCodeToException.raise_exception_for_failed_requests`
(src/src/http_exception.py): statuses below 300 pass through, 3xx / 404 / 401 /
403 / 406 / other 4xx / 5xx raise the corresponding typed
`HTTPStatusCodeException`, and statuses of 600 and above raise a plain
`Exception`.  Each typed exception carries the numeric status, which is all the
adapter boundary consumes, so the error value is `PyExn.http status`. -/
def raise_exception_for_failed_requests (status : Int) : Except PyExn Int :=
  if status < 300 then .ok status
  else if 300 ≤ status ∧ status < 400 then .error (.http status)
  else if status = 404 then .error (.http 404)
  else if status = 401 then .error (.http 401)
  else if status = 403 then .error (.http 403)
  else if status = 406 then .error (.http 406)
  else if 400 ≤ status ∧ status < 500 then .error (.http status)
  else if 500 ≤ status ∧ status < 600 then .error (.http status)
  else .error .generic

/-- Embedding of `SolidPathValidation.customize_return_based_on_exception_type`
(src/src/solid_path_validation.py): a normal return passes through, an
`HTTPStatusCodeException` becomes minus `http_to_errno` of its status, and any
other exception becomes `-EBADMSG`. -/
def customize_return (outcome : Except PyExn Int) : Int :=
  match outcome with
  | .ok v => v
  | .error (.http s) => -(http_to_errno s)
  | .error .generic => -EBADMSG

/-! ## Paths and URIs as character lists -/

abbrev Uri := List Char

/-- Characters of a string literal, for concrete examples. -/
def chars (s : String) : List Char := s.data

/-- Python `str.lstrip("/")`: drop every leading slash. -/
def lstripSlashes (p : List Char) : List Char := p.dropWhile (fun c => c = '/')

/-- Python `str.rstrip("/")`: drop every trailing slash. -/
def rstripSlashes (p : List Char) : List Char :=
  (p.reverse.dropWhile (fun c => c = '/')).reverse

/-- Python `str.split("/")` (with an explicit separator): the empty string
yields `[""]`, and adjacent / leading / trailing separators yield empty
fields. -/
def splitSlash : List Char → List (List Char)
  | [] => [[]]
  | c :: rest =>
    if c = '/' then [] :: splitSlash rest
    else
      match splitSlash rest with
      | s :: ss => (c :: s) :: ss
      | [] => [[c]]

/-- Python `str.endswith("/")`. -/
def endsWithSlash (p : List Char) : Bool := p.getLast? = some '/'

/-! ## Resource hierarchy (src/src/solidfs_resource_hierarchy.py)

For path resolution the hierarchy is modelled by the containment relation the
source discovers through `get_contained_resources`: a finite table mapping a
container URI to the list of child resources that a (cached or freshly parsed)
container listing yields.  `Entry` is the projection of a `Resource` object
that resolution inspects: its URI and whether it is a `Container`. -/

structure Entry where
  uri : Uri
  isContainer : Bool
deriving DecidableEq, Repr

structure Hierarchy where
  /-- `SOLIDFS_BASE_URL`, already normalized to end with a slash. -/
  rootUri : Uri
  /-- The containment table: for each container URI, the children that
  `get_contained_resources` returns for it. -/
  entries : List (Uri × List Entry)
deriving Repr

/-- The root `Container` built by `_get_root`. -/
def rootEntry (h : Hierarchy) : Entry := ⟨h.rootUri, true⟩

/-- The children that `get_contained_resources` yields for the container with
this URI (containers absent from the table list as empty). -/
def childrenOf (h : Hierarchy) (uri : Uri) : List Entry :=
  match h.entries.find? (fun p => p.1 = uri) with
  | some p => p.2
  | none => []

/-- One step of the resolution loop: the source builds
`expected_urls = [current.uri + part, current.uri + part + "/"]` and scans the
contained resources for the first whose URI is in that list. -/
def findChild (h : Hierarchy) (curUri : Uri) (part : List Char) : Option Entry :=
  (childrenOf h curUri).find?
    (fun e => e.uri = curUri ++ part ∨ e.uri = curUri ++ part ++ ['/'])

/-- The `for part in parts` loop of `get_resource_by_path`: a non-container in
the middle of the path raises a plain `Exception`; an unmatched part raises
`NotFoundException` (status 404). -/
def resolveParts (h : Hierarchy) : Entry → List (List Char) → Except PyExn Entry
  | cur, [] => .ok cur
  | cur, part :: rest =>
    if cur.isContainer = false then .error .generic
    else
      match findChild h cur.uri part with
      | some e => resolveParts h e rest
      | none => .error (.http 404)

/-- Embedding of `SolidResourceHierarchy.get_resource_by_path` with the
default `start=None` (so `start` is the root): `"/"` and `""` return the root,
`"."` returns the start (the root), and otherwise the path is
`lstrip("/")`-ped, split on `/`, and walked part by part. -/
def get_resource_by_path (h : Hierarchy) (path : List Char) : Except PyExn Entry :=
  if path = chars "/" ∨ path = chars "" then .ok (rootEntry h)
  else if path = chars "." then .ok (rootEntry h)
  else resolveParts h (rootEntry h) (splitSlash (lstripSlashes path))

/-- The containment invariant the hierarchy maintains (section 3 of the spec):
a child URI discovered in a container listing extends the URI of its container
by a nonempty segment, so it never equals the container URI itself, nor the
container URI followed by a bare slash. -/
def NoTrivialChild (h : Hierarchy) : Prop :=
  ∀ p ∈ h.entries, ∀ e ∈ p.2, e.uri ≠ p.1 ∧ e.uri ≠ p.1 ++ ['/']

instance (h : Hierarchy) : Decidable (NoTrivialChild h) := by
  unfold NoTrivialChild; infer_instance

/-- A concrete two-level hierarchy: the root `p:/` contains the container
`p:/a/`, which is empty.  Used by counterexamples and witnesses. -/
def exampleHierarchy : Hierarchy :=
  { rootUri := chars "p:/"
  , entries := [(chars "p:/", [⟨chars "p:/a/", true⟩, ⟨chars "p:/f", false⟩]),
                (chars "p:/a/", [])] }

/-! ## MIME inference (src/src/solid_mime.py)

`magic.from_buffer` is the external libmagic binding; it is an oracle
parameter.  `none` stands for the cases in which the source leaves the content
type unchanged: the binding raised, or returned a falsy (empty) string. -/

/-- Embedding of `SolidMime.update_mime_type_from_content`, returning the new
`resource.content_type` given the previous one: a write at offset 1024 or
beyond cannot change the first-1024-byte signature, so nothing happens; on an
empty buffer nothing happens; otherwise magic-byte detection runs on the first
1024 bytes and overwrites the content type only when it yields a result. -/
def update_mime_type_from_content (offset : Nat) (content_type : String)
    (content : List Nat) (magic : List Nat → Option String) : String :=
  if 1024 ≤ offset then content_type
  else if content.length ≠ 0 then
    match magic (content.take 1024) with
    | some m => m
    | none => content_type
  else content_type

/-! ## The adapter state (src/src/solidfs.py)

`resource_write_buffer` and `resource_read_buffer` are the two URI-keyed maps
of `SolidFS.__init__`; `size` and `ctype` are the `stat.st_size` and
`content_type` attributes of the `Resource` objects, viewed as maps keyed by
the resource URI (each URI names one live `Resource` object). -/

structure AdapterState where
  writeBuf : Uri → Option (List Nat)
  readCache : Uri → Option (List Nat)
  size : Uri → Int
  ctype : Uri → String

/-- One outbound HTTP request, as logged by the oracle-driven embedding. -/
inductive ReqLog where
  | get (uri : Uri)
  | put (uri : Uri) (contentType : String) (body : List Nat)
  | delete (uri : Uri)
deriving DecidableEq, Repr

/-- What the server would answer to a GET: its status, body and Content-Type
header. -/
structure ServerResp where
  status : Int
  body : List Nat
  contentType : String

def setWriteBuf (st : AdapterState) (uri : Uri) (v : Option (List Nat)) : AdapterState :=
  { st with writeBuf := fun u => if u = uri then v else st.writeBuf u }

def setReadCache (st : AdapterState) (uri : Uri) (v : List Nat) : AdapterState :=
  { st with readCache := fun u => if u = uri then some v else st.readCache u }

def setSize (st : AdapterState) (uri : Uri) (v : Int) : AdapterState :=
  { st with size := fun u => if u = uri then v else st.size u }

def setCtype (st : AdapterState) (uri : Uri) (v : String) : AdapterState :=
  { st with ctype := fun u => if u = uri then v else st.ctype u }

/-- The state refresh a whole-resource GET at offset 0 performs in
`SolidFS.read`: content type, stat size and read cache from the response. -/
def read_refresh_state (st : AdapterState) (uri : Uri) (sv : ServerResp) : AdapterState :=
  setReadCache (setSize (setCtype st uri sv.contentType) uri sv.body.length) uri sv.body

/-- Result of one adapter operation: the Python return value or raised
exception, the state after it, and the HTTP requests it issued in order. -/
structure OpResult (α : Type) where
  ret : Except PyExn α
  st : AdapterState
  reqs : List ReqLog

/-- Python truthiness of `self.resource_read_buffer.get(uri)` /
`self.resource_write_buffer.get(uri)`: present and nonempty. -/
def truthyBytes : Option (List Nat) → Bool
  | some c => !c.isEmpty
  | none => false

/-- Embedding of the body of `SolidFS.write` after path resolution: obtain or
create the write buffer of the resource (`dict.setdefault`), extend it with
zero bytes up to `offset + len(buf)` if it is shorter, splice `buf` over
`[offset : offset + len(buf)]`, and return `len(buf)`.  No request is made. -/
def write_buffer_op (st : AdapterState) (uri : Uri) (buf : List Nat) (offset : Nat) :
    OpResult Int :=
  let buffer := (st.writeBuf uri).getD []
  let target := offset + buf.length
  let padded :=
    if buffer.length < target then buffer ++ List.replicate (target - buffer.length) 0
    else buffer
  let newBuffer := padded.take offset ++ buf ++ padded.drop (offset + buf.length)
  ⟨.ok (buf.length : Int), setWriteBuf st uri (some newBuffer), []⟩

/-- Embedding of `SolidFS.write`: resolve the path, then update the buffer. -/
def write (h : Hierarchy) (st : AdapterState) (path : List Char) (buf : List Nat)
    (offset : Nat) : OpResult Int :=
  match get_resource_by_path h path with
  | .error e => ⟨.error e, st, []⟩
  | .ok entry => write_buffer_op st entry.uri buf offset

/-- Embedding of the body of `SolidFS.read` after path resolution.  With a
nonzero offset and a truthy read-cache entry the slice is served from the
cache with no request.  Otherwise the whole resource is fetched: a failure
status raises out of the requestor, a non-200 success status raises a plain
`Exception`, and on 200 the `[offset : offset + size]` slice is returned; only
when `offset == 0` are the content type, the stat size and the read cache
updated from the response. -/
def read_op (st : AdapterState) (uri : Uri) (size offset : Nat) (sv : ServerResp) :
    OpResult (List Nat) :=
  if offset ≠ 0 ∧ truthyBytes (st.readCache uri) then
    ⟨.ok (((st.readCache uri).getD []).drop offset |>.take size), st, []⟩
  else
    match raise_exception_for_failed_requests sv.status with
    | .error e => ⟨.error e, st, [.get uri]⟩
    | .ok s =>
      if s ≠ 200 then ⟨.error .generic, st, [.get uri]⟩
      else
        let content_to_return := (sv.body.drop offset).take size
        if offset = 0 then
          ⟨.ok content_to_return, read_refresh_state st uri sv, [.get uri]⟩
        else ⟨.ok content_to_return, st, [.get uri]⟩

/-- Embedding of `SolidFS.read`: resolve the path, then fetch or serve. -/
def read (h : Hierarchy) (st : AdapterState) (path : List Char) (size offset : Nat)
    (sv : ServerResp) : OpResult (List Nat) :=
  match get_resource_by_path h path with
  | .error e => ⟨.error e, st, []⟩
  | .ok entry => read_op st entry.uri size offset sv

/-- Embedding of the body of `SolidFS.flush` after path resolution.  With no
buffer entry it returns 0.  Otherwise the content type is re-detected from the
whole buffer at offset 0; if it changed, a DELETE is issued (its response is
not inspected, but the requestor raises for statuses of 300 and above) and the
expected PUT status becomes 201 instead of 204; then the PUT is issued, the
stat size is updated exactly when the PUT status equals the expected one, and
the buffer entry is deleted — the last two steps only happening if the PUT
returned instead of raising. -/
def flush_op (st : AdapterState) (uri : Uri) (magic : List Nat → Option String)
    (deleteStatus putStatus : Int) : OpResult Int :=
  match st.writeBuf uri with
  | none => ⟨.ok 0, st, []⟩
  | some content =>
    let previous_content_type := st.ctype uri
    let ct := update_mime_type_from_content 0 previous_content_type content magic
    let st1 := setCtype st uri ct
    if ct ≠ previous_content_type then
      match raise_exception_for_failed_requests deleteStatus with
      | .error e => ⟨.error e, st1, [.delete uri]⟩
      | .ok _ =>
        match raise_exception_for_failed_requests putStatus with
        | .error e => ⟨.error e, st1, [.delete uri, .put uri ct content]⟩
        | .ok s =>
          let st2 := if s = 201 then setSize st1 uri content.length else st1
          ⟨.ok 0, setWriteBuf st2 uri none, [.delete uri, .put uri ct content]⟩
    else
      match raise_exception_for_failed_requests putStatus with
      | .error e => ⟨.error e, st1, [.put uri ct content]⟩
      | .ok s =>
        let st2 := if s = 204 then setSize st1 uri content.length else st1
        ⟨.ok 0, setWriteBuf st2 uri none, [.put uri ct content]⟩

/-- Embedding of `SolidFS.flush`: resolve the path, then flush the buffer. -/
def flush (h : Hierarchy) (st : AdapterState) (path : List Char)
    (magic : List Nat → Option String) (deleteStatus putStatus : Int) : OpResult Int :=
  match get_resource_by_path h path with
  | .error e => ⟨.error e, st, []⟩
  | .ok entry => flush_op st entry.uri magic deleteStatus putStatus

/-- Embedding of `SolidFS.truncate`, with the exception-to-errno decorator
already applied (so the result is the integer the kernel sees).  A path ending
in `/` or a negative size yields `-EINVAL`.  If the write buffer entry is
truthy (present and nonempty) it is truncated in place and the stat size set.
Otherwise, for a nonzero size, `size + 1` bytes are read from the server
(`self.read(path, size + 1, 0)` — the decorated method, so its exceptions
surface as negative integers and are returned); fewer than `size` available
bytes yield `-EINVAL`; `current_size_is_at_least` is the byte count obtained,
`-1` in the `size == 0` branch, and only when `size` differs from it is the
sliced prefix written back through `self.write` — no flush is issued. -/
def truncate (h : Hierarchy) (st : AdapterState) (path : List Char) (size : Int)
    (sv : ServerResp) : Int × AdapterState × List ReqLog :=
  if endsWithSlash path then (-EINVAL, st, [])
  else if size < 0 then (-EINVAL, st, [])
  else
    match get_resource_by_path h path with
    | .error e => (customize_return (.error e), st, [])
    | .ok entry =>
      let uri := entry.uri
      if truthyBytes (st.writeBuf uri) then
        let in_flight := (st.writeBuf uri).getD []
        (0, setSize (setWriteBuf st uri (some (in_flight.take size.toNat))) uri size, [])
      else if size ≠ 0 then
        let r := read h st path (size.toNat + 1) 0 sv
        match r.ret with
        | .error e => (customize_return (.error e), r.st, r.reqs)
        | .ok content =>
          if (content.length : Int) < size then (-EINVAL, r.st, r.reqs)
          else
            let current_size_is_at_least : Int := content.length
            if size ≠ current_size_is_at_least then
              let new_content := content.take size.toNat
              let st3 := setSize r.st uri size
              let w := write h st3 path new_content 0
              match w.ret with
              | .error e => (customize_return (.error e), w.st, r.reqs ++ w.reqs)
              | .ok _ => (0, w.st, r.reqs ++ w.reqs)
            else (0, r.st, r.reqs)
      else
        let st3 := setSize st uri 0
        let w := write h st3 path [] 0
        match w.ret with
        | .error e => (customize_return (.error e), w.st, w.reqs)
        | .ok _ => (0, w.st, w.reqs)

/-! ## Container enumeration (src/src/solidfs_resource_hierarchy.py)

`get_contained_resources` memoizes into `container.contains`.  The RDF parse
of a 200 body is external (rdflib); the children it would produce are the
oracle parameter `parsed`.  The GET outcome is the status the server answers,
run through the typed-exception mapping of the requestor
(`raise_exception_for_failed_requests`), under which a 403 raises
`ForbiddenException` and a 401 raises `UnauthorizedException` — exactly the
two classes the `except` clauses of the source catch. -/

structure ContainerObj where
  uri : Uri
  contains : Option (List Entry)
deriving Repr

/-- Embedding of `SolidResourceHierarchy.get_contained_resources`: return the
memoized set if present; otherwise GET the container listing (one request).  A
caught `ForbiddenException` or `UnauthorizedException` records `contains` as
the empty set and returns it; any other raised exception propagates; a 200
response parses into `parsed` and memoizes it; any other non-raising status
raises a plain `Exception`.  The third component counts the requests made. -/
def get_contained_resources (c : ContainerObj) (getStatus : Int) (parsed : List Entry) :
    Except PyExn (List Entry) × ContainerObj × Nat :=
  match c.contains with
  | some items => (.ok items, c, 0)
  | none =>
    match raise_exception_for_failed_requests getStatus with
    | .error (.http 403) => (.ok [], { c with contains := some [] }, 1)
    | .error (.http 401) => (.ok [], { c with contains := some [] }, 1)
    | .error e => (.error e, c, 1)
    | .ok s =>
      if s = 200 then (.ok parsed, { c with contains := some parsed }, 1)
      else (.error .generic, c, 1)

/-- Embedding of `URIRefHelper.relative_to` (src/solid_resource.py): the
string of `end` with the leading `len(str(start))` characters removed. -/
def relative_to (start target : Uri) : Uri := target.drop start.length

/-- The directory entry names `SolidFS.readdir` yields: `.` and `..` first,
then for each contained resource its URI relative to the container URI with
trailing slashes stripped. -/
def readdir_names (containerUri : Uri) (children : List Entry) : List (List Char) :=
  chars "." :: chars ".." ::
    children.map (fun e => rstripSlashes (relative_to containerUri e.uri))

/-! ## Authentication and request headers
(src/src/solid_authentication.py, src/src/solid_request.py) -/

structure AuthState where
  cached_token_value : Option String
  cached_token_expiry : Option Int
deriving Repr, DecidableEq

/-- What the token endpoint would answer to the client-credentials POST. -/
structure TokenResponse where
  status : Int
  access_token : String
  expires_in : Int

/-- Embedding of `SolidAuthentication.authenticate_with_client_credentials`.
`now` is `time()`; the environment variables are `Option String` (absent or
their value).  If no expiry is cached or it has passed: an unset or empty
`SOLIDFS_CLIENT_ID` means no authentication will be used and `None` is
returned at once; a missing secret or token URL raises; otherwise the POST is
made and a 200 caches the token, a 401 raises `UnauthorizedException`, and any
other status raises an `HTTPStatusCodeException` with that status.  Otherwise
the cached value is returned. -/
def authenticate_with_client_credentials (st : AuthState) (now : Int)
    (client_id client_secret token_url : Option String) (resp : TokenResponse) :
    Except PyExn (AuthState × Option String) :=
  if st.cached_token_expiry.isNone ∨ st.cached_token_expiry.getD 0 < now then
    let cid := client_id.getD ""
    if cid.length = 0 then .ok (st, none)
    else
      match client_secret with
      | none => .error .generic
      | some _ =>
        match token_url with
        | none => .error .generic
        | some _ =>
          if resp.status = 200 then
            let st2 : AuthState :=
              ⟨some resp.access_token, some (now + resp.expires_in)⟩
            .ok (st2, st2.cached_token_value)
          else if resp.status = 401 then .error (.http 401)
          else .error (.http resp.status)
  else .ok (st, st.cached_token_value)

/-- Python `f"Bearer {x}"` interpolation of an optional value: `None` prints
as the four characters `None`. -/
def pyStr : Option String → String
  | none => "None"
  | some s => s

/-- Embedding of `SolidRequest._get_auth_headers` (src/src/solid_request.py):
the Authorization header is built unconditionally from the f-string
`f"Bearer {token}"`. -/
def get_auth_headers (token : Option String) : List (String × String) :=
  [("Authorization", "Bearer " ++ pyStr token)]

/-- The `__common_headers` of `SolidRequest.__init__`. -/
def common_headers (session_identifier : String) : List (String × String) :=
  [("Session-Identifier", session_identifier), ("User-Agent", "SolidFS/v0.0.1")]

/-- Lookup in a Python dict modelled as an association list. -/
def dictGet (d : List (String × String)) (k : String) : Option String :=
  (d.find? (fun p => p.1 = k)).map (fun p => p.2)

/-- Python `a | b` on dicts: the keys of `a` (with the value from `b` when `b`
also binds them) followed by the keys only `b` binds. -/
def dictMerge (a b : List (String × String)) : List (String × String) :=
  a.map (fun p => (p.1, (dictGet b p.1).getD p.2)) ++
    b.filter (fun p => (dictGet a p.1).isNone)

/-- The headers `SolidRequest.request` sends:
`self.__common_headers | self._get_auth_headers() | Tracing.get_trace_headers() | extra_headers`. -/
def request_headers (session_identifier : String) (token : Option String)
    (trace_headers extra_headers : List (String × String)) : List (String × String) :=
  dictMerge (dictMerge (dictMerge (common_headers session_identifier)
    (get_auth_headers token)) trace_headers) extra_headers

/-! ## Resource identity (src/solid_resource.py)

`Resource` is a `@dataclass` with fields `uri`, `stat` (a `ResourceStat`,
which defines no `__eq__`, so dataclass equality compares it by object
identity) and `content` (a `Cache`, likewise compared by identity), plus an
explicit `__hash__` delegating to `uri.__hash__`.  The dataclass decorator
still generates `__eq__` over the full field tuple.  The embedding keeps the
`uri` and represents the `stat` and `content` references by the identities of
the objects they point to. -/

structure PyResource where
  uri : String
  /-- Identity of the `ResourceStat` object the `stat` field references. -/
  statId : Nat
  /-- Identity of the `Cache` object the `content` field references. -/
  contentId : Nat
deriving DecidableEq, Repr

/-- The dataclass-generated `Resource.__eq__`: the field tuples must agree,
`stat` and `content` comparing by object identity. -/
def pyEq (a b : PyResource) : Bool :=
  a.uri = b.uri ∧ a.statId = b.statId ∧ a.contentId = b.contentId

/-- The explicit `Resource.__hash__`: `self.uri.__hash__()`.  The embedding
returns the hashed string itself, which determines the Python hash. -/
def pyHashKey (a : PyResource) : String := a.uri

/-- `set.add` of CPython: the element is inserted unless an element that is
equal to it (`__eq__`, after the `__hash__` bucket check, which `pyEq`
subsumes because `pyEq` implies equal URIs) is already present. -/
def setAdd (s : List PyResource) (x : PyResource) : List PyResource :=
  if s.any (fun y => pyEq y x) then s else s ++ [x]

/-! ## Path and URL codec (src/solid_resource.py `URIRefHelper`)

`to_quoted_url` splits the URL, percent-encodes the path component with
`urllib.parse.quote` (safe characters: the unreserved set plus `/`), and
reassembles; `from_quoted_url` does the same with `urllib.parse.unquote`.  The
embedding represents a URIRef by its split components — scheme, authority,
path, query, fragment — with the path as its UTF-8 byte sequence, which is the
level at which `quote` and `unquote` operate. -/

structure SplitUri where
  scheme : String
  netloc : String
  /-- UTF-8 bytes of the path component. -/
  path : List Nat
  query : String
  fragment : String
deriving DecidableEq, Repr

/-- The bytes `urllib.parse.quote` passes through unencoded with its default
`safe="/"`: ALPHA / DIGIT / `_` / `.` / `-` / `~` / `/`. -/
def quoteSafe (b : Nat) : Bool :=
  (65 ≤ b ∧ b ≤ 90) ∨ (97 ≤ b ∧ b ≤ 122) ∨ (48 ≤ b ∧ b ≤ 57) ∨
    b = 95 ∨ b = 46 ∨ b = 45 ∨ b = 126 ∨ b = 47

/-- Upper-case hexadecimal digit of a value below 16, as a byte. -/
def hexDigit (n : Nat) : Nat := if n < 10 then 48 + n else 55 + n

/-- Is this byte an ASCII hexadecimal digit? -/
def isHexDigit (b : Nat) : Bool :=
  (48 ≤ b ∧ b ≤ 57) ∨ (65 ≤ b ∧ b ≤ 70) ∨ (97 ≤ b ∧ b ≤ 102)

/-- Value of an ASCII hexadecimal digit. -/
def hexVal (b : Nat) : Nat :=
  if 48 ≤ b ∧ b ≤ 57 then b - 48
  else if 65 ≤ b ∧ b ≤ 70 then b - 55
  else if 97 ≤ b ∧ b ≤ 102 then b - 87
  else 0

/-- `urllib.parse.quote` on a byte sequence: safe bytes pass through, every
other byte becomes `%` followed by its two upper-case hex digits. -/
def pyQuote : List Nat → List Nat
  | [] => []
  | b :: rest =>
    if quoteSafe b then b :: pyQuote rest
    else 37 :: hexDigit (b / 16) :: hexDigit (b % 16) :: pyQuote rest

/-- `urllib.parse.unquote` on a byte sequence: `%` followed by two hex digits
decodes to that byte; a `%` not so followed stays literal. -/
def pyUnquote : List Nat → List Nat
  | [] => []
  | x :: rest =>
    if x = 37 then
      match rest with
      | a :: b :: rest2 =>
        if isHexDigit a ∧ isHexDigit b then
          (hexVal a * 16 + hexVal b) :: pyUnquote rest2
        else 37 :: pyUnquote (a :: b :: rest2)
      | [a] => 37 :: (if a = 37 then [37] else [a])
      | [] => [37]
    else x :: pyUnquote rest

/-- Embedding of `URIRefHelper.to_quoted_url`: only the path is quoted. -/
def to_quoted_url (u : SplitUri) : SplitUri := { u with path := pyQuote u.path }

/-- Embedding of `URIRefHelper.from_quoted_url`: only the path is unquoted. -/
def from_quoted_url (u : SplitUri) : SplitUri := { u with path := pyUnquote u.path }

/-! ## Helper lemmas -/

theorem raise_of_lt_300 (s : Int) (h : s < 300) :
    raise_exception_for_failed_requests s = .ok s := by
  unfold raise_exception_for_failed_requests
  rw [if_pos h]

theorem raise_of_not_lt_300 (s : Int) (h : ¬ s < 300) :
    ∃ e, raise_exception_for_failed_requests s = .error e := by
  unfold raise_exception_for_failed_requests
  split_ifs <;> first | exact absurd ‹s < 300› h | exact ⟨_, rfl⟩

theorem truthyBytes_false_getD (o : Option (List Nat)) (h : truthyBytes o = false) :
    o.getD [] = [] := by
  cases o with
  | none => rfl
  | some c => cases c with
    | nil => rfl
    | cons a t => simp [truthyBytes] at h

theorem hexVal_hexDigit (n : Nat) (h : n < 16) : hexVal (hexDigit n) = n := by
  unfold hexDigit hexVal
  split_ifs <;> omega

theorem isHexDigit_hexDigit (n : Nat) (h : n < 16) : isHexDigit (hexDigit n) = true := by
  simp only [isHexDigit, hexDigit, decide_eq_true_eq]
  split_ifs <;> omega

theorem quoteSafe_ne_37 (b : Nat) (h : quoteSafe b = true) : b ≠ 37 := by
  intro e
  subst e
  simp [quoteSafe] at h

theorem pyUnquote_cons_of_ne_37 (x : Nat) (l : List Nat) (hx : x ≠ 37) :
    pyUnquote (x :: l) = x :: pyUnquote l := by
  rw [pyUnquote.eq_def]
  simp [hx]

theorem pyUnquote_pyQuote (bs : List Nat) (h : ∀ b ∈ bs, b < 256) :
    pyUnquote (pyQuote bs) = bs := by
  induction bs with
  | nil => rfl
  | cons b rest ih =>
    have hb : b < 256 := h b (List.mem_cons_self b rest)
    have hrest : ∀ x ∈ rest, x < 256 := fun x hx => h x (List.mem_cons_of_mem b hx)
    by_cases hs : quoteSafe b = true
    · rw [show pyQuote (b :: rest) = b :: pyQuote rest by simp [pyQuote, hs],
        pyUnquote_cons_of_ne_37 b _ (quoteSafe_ne_37 b hs), ih hrest]
    · have hq : pyQuote (b :: rest) =
          37 :: hexDigit (b / 16) :: hexDigit (b % 16) :: pyQuote rest := by
        simp [pyQuote, hs]
      have hdiv : b / 16 < 16 := by omega
      have hmod : b % 16 < 16 := by omega
      rw [hq]
      rw [show pyUnquote (37 :: hexDigit (b / 16) :: hexDigit (b % 16) :: pyQuote rest)
          = (hexVal (hexDigit (b / 16)) * 16 + hexVal (hexDigit (b % 16))) ::
            pyUnquote (pyQuote rest) by
        rw [pyUnquote.eq_def]
        simp [isHexDigit_hexDigit _ hdiv, isHexDigit_hexDigit _ hmod]]
      rw [hexVal_hexDigit _ hdiv, hexVal_hexDigit _ hmod, ih hrest]
      congr 1
      omega

theorem splitSlash_ne_nil (l : List Char) : splitSlash l ≠ [] := by
  cases l with
  | nil => simp [splitSlash]
  | cons c rest =>
    rw [splitSlash]
    by_cases hc : c = '/'
    · simp [hc]
    · rw [if_neg hc]
      cases hsp : splitSlash rest with
      | nil => simp
      | cons s ss => simp

theorem splitSlash_eq_single_nil (l : List Char) (h : splitSlash l = [[]]) : l = [] := by
  cases l with
  | nil => rfl
  | cons c rest =>
    rw [splitSlash] at h
    by_cases hc : c = '/'
    · rw [if_pos hc] at h
      have := splitSlash_ne_nil rest
      simp at h
      exact absurd h this
    · rw [if_neg hc] at h
      cases hsp : splitSlash rest with
      | nil => exact absurd hsp (splitSlash_ne_nil rest)
      | cons s ss =>
        rw [hsp] at h
        simp at h

theorem mem_of_getLast?_eq_some {α : Type} (l : List α) (a : α)
    (h : l.getLast? = some a) : a ∈ l := by
  induction l with
  | nil => simp at h
  | cons c rest ih =>
    cases rest with
    | nil =>
      simp [List.getLast?] at h
      simp [h]
    | cons d rest2 =>
      rw [List.getLast?_cons_cons] at h
      exact List.mem_cons_of_mem c (ih h)

theorem getLast?_splitSlash (l : List Char) (h : l.getLast? = some '/') :
    (splitSlash l).getLast? = some [] := by
  induction l with
  | nil => simp at h
  | cons c rest ih =>
    cases rest with
    | nil =>
      simp [List.getLast?] at h
      subst h
      rfl
    | cons d rest2 =>
      rw [List.getLast?_cons_cons] at h
      have ihh := ih h
      by_cases hc : c = '/'
      · rw [splitSlash, if_pos hc]
        cases hsp : splitSlash (d :: rest2) with
        | nil => exact absurd hsp (splitSlash_ne_nil _)
        | cons s ss =>
          rw [hsp] at ihh
          rw [List.getLast?_cons_cons]
          exact ihh
      · rw [splitSlash, if_neg hc]
        cases hsp : splitSlash (d :: rest2) with
        | nil => exact absurd hsp (splitSlash_ne_nil _)
        | cons s ss =>
          rw [hsp] at ihh
          cases ss with
          | nil =>
            simp [List.getLast?] at ihh
            subst ihh
            exact absurd (splitSlash_eq_single_nil _ hsp) (by simp)
          | cons t ts =>
            rw [List.getLast?_cons_cons] at ihh ⊢
            exact ihh

theorem nil_mem_splitSlash (l : List Char) (h : l.getLast? = some '/') :
    [] ∈ splitSlash l :=
  mem_of_getLast?_eq_some _ _ (getLast?_splitSlash l h)

/-- Under the containment invariant, an empty path segment can never be
matched, so a part list containing one never resolves. -/
theorem resolveParts_error_of_nil_mem (h : Hierarchy) (hnt : NoTrivialChild h) :
    ∀ (parts : List (List Char)) (cur : Entry), [] ∈ parts →
      ∃ e, resolveParts h cur parts = .error e := by
  intro parts
  induction parts with
  | nil => intro cur hmem; simp at hmem
  | cons part rest ih =>
    intro cur hmem
    rw [resolveParts]
    by_cases hcont : cur.isContainer = false
    · exact ⟨.generic, by rw [if_pos hcont]⟩
    · rw [if_neg hcont]
      rcases List.mem_cons.mp hmem with hpart | hrest
    -- the empty part cannot match any child, by the containment invariant
      · subst hpart
        have hfind : findChild h cur.uri [] = none := by
          rw [findChild, List.find?_eq_none]
          intro e he
          simp only [List.append_nil, decide_eq_true_eq, not_or]
          unfold childrenOf at he
          cases hf : h.entries.find? (fun p => p.1 = cur.uri) with
          | none => rw [hf] at he; simp at he
          | some p =>
            rw [hf] at he
            have hp1 : p.1 = cur.uri := by
              have := List.find?_some hf
              simpa using this
            have hpe := hnt p (List.mem_of_find?_eq_some hf) e he
            rw [hp1] at hpe
            exact hpe
        rw [hfind]
        exact ⟨.http 404, rfl⟩
      · cases hfind : findChild h cur.uri part with
        | none => exact ⟨.http 404, rfl⟩
        | some e2 => exact ih e2 hrest

theorem rstripSlashes_of_not_endsWithSlash (p : List Char)
    (h : endsWithSlash p = false) : rstripSlashes p = p := by
  rw [rstripSlashes]
  have : p.reverse.dropWhile (fun c => c = '/') = p.reverse := by
    cases hr : p.reverse with
    | nil => rfl
    | cons a t =>
      rw [List.dropWhile_cons]
      have ha : (a = '/') = False := by
        simp only [endsWithSlash, ← List.head?_reverse, hr] at h
        simp at h
        simp [h]
      simp [ha]
  rw [this, List.reverse_reverse]

theorem endsWithSlash_ne_nil (p : List Char) (h : endsWithSlash p = true) :
    p ≠ [] := by
  intro e
  subst e
  simp [endsWithSlash] at h

/-! ### Frame lemmas for the read cache -/

theorem write_buffer_op_readCache (st : AdapterState) (uri : Uri) (buf : List Nat)
    (offset : Nat) : (write_buffer_op st uri buf offset).st.readCache = st.readCache := by
  rfl

theorem flush_op_readCache (st : AdapterState) (uri : Uri)
    (magic : List Nat → Option String) (dS pS : Int) :
    (flush_op st uri magic dS pS).st.readCache = st.readCache := by
  rw [flush_op]
  cases st.writeBuf uri with
  | none => rfl
  | some content =>
    simp only
    split
    · cases raise_exception_for_failed_requests dS with
      | error e => rfl
      | ok _ =>
        cases raise_exception_for_failed_requests pS with
        | error e => rfl
        | ok s =>
          simp only [setWriteBuf, setSize, setCtype]
          split <;> rfl
    · cases raise_exception_for_failed_requests pS with
      | error e => rfl
      | ok s =>
        simp only [setWriteBuf, setSize, setCtype]
        split <;> rfl

/-! ## Claim C1 -/

/-- C1: the HTTP-status-to-errno mapping as the code actually computes it.
The claim states that 401 and 403 yield `-EACCES`; because the arm
`case 401, 403:` of the source `match` is a sequence pattern that an integer
never matches, both statuses fall into the generic 4xx arm and yield
`-EINVAL` instead.  The remaining rows of the table hold: 404 yields ENOENT,
3xx EREMCHG, 406 ENOTSUP, other 4xx EINVAL, 5xx EAGAIN, 1xx/2xx zero.  This
theorem evaluates the embedded code at the failing inputs and at one
representative of every other row, and records that EINVAL is not EACCES. -/
theorem C1_actual_errno_mapping :
    http_to_errno 401 = EINVAL ∧ http_to_errno 403 = EINVAL ∧ EINVAL ≠ EACCES ∧
    customize_return (.error (.http 401)) = -EINVAL ∧
    customize_return (.error (.http 403)) = -EINVAL ∧
    http_to_errno 404 = ENOENT ∧ http_to_errno 301 = EREMCHG ∧
    http_to_errno 406 = ENOTSUP ∧ http_to_errno 422 = EINVAL ∧
    http_to_errno 500 = EAGAIN ∧ http_to_errno 503 = EAGAIN ∧
    http_to_errno 599 = EAGAIN ∧ http_to_errno 100 = 0 ∧ http_to_errno 200 = 0 ∧
    http_to_errno 204 = 0 := by
  decide

/-! ## Claim C2 -/

/-- C2 counterexample: in the concrete hierarchy whose root `p:/` contains the
container `p:/a/`, resolving the valid path `/a/` raises `NotFoundException`
(the trailing slash leaves an empty final segment that matches no child),
while resolving `"/a/".rstrip("/") = "/a"` returns the container.  So
`resolve(p)` and `resolve(p.rstrip("/"))` differ at `p = "/a/"`, refuting the
claim as stated. -/
theorem C2_counterexample :
    get_resource_by_path exampleHierarchy (chars "/a/") = .error (.http 404) ∧
    get_resource_by_path exampleHierarchy (rstripSlashes (chars "/a/")) =
      .ok ⟨chars "p:/a/", true⟩ ∧
    (Except.error (.http 404) : Except PyExn Entry) ≠ .ok ⟨chars "p:/a/", true⟩ := by
  refine ⟨by rfl, by rfl, by simp⟩

/-- C2 amended: `resolve("/")` returns the root.  For a valid path that does
not end in `/`, `p.rstrip("/")` is `p` itself, so the claimed equation is the
trivial one.  For a path that ends in `/` and is not `"/"`, resolution fails
(it raises) in every hierarchy satisfying the containment invariant that no
child listing contains the container URI itself or that URI plus a bare
slash, because the empty final segment cannot match any child. -/
theorem C2_amended (h : Hierarchy) (hnt : NoTrivialChild h) :
    get_resource_by_path h (chars "/") = .ok (rootEntry h) ∧
    (∀ p : List Char, endsWithSlash p = false →
      get_resource_by_path h p = get_resource_by_path h (rstripSlashes p)) ∧
    (∀ p : List Char, endsWithSlash p = true → p ≠ chars "/" →
      ∃ e, get_resource_by_path h p = .error e) := by
  refine ⟨by rw [get_resource_by_path, if_pos (Or.inl rfl)], ?_, ?_⟩
  · intro p hp
    rw [rstripSlashes_of_not_endsWithSlash p hp]
  · intro p hp hne
    have hlast : p.getLast? = some '/' := by
      simpa [endsWithSlash] using hp
    have hnnil : p ≠ [] := endsWithSlash_ne_nil p hp
    have hnslash : ¬ (p = chars "/" ∨ p = chars "") := by
      rintro (e | e)
      · exact hne e
      · exact hnnil e
    have hndot : p ≠ chars "." := by
      intro e
      rw [e] at hlast
      exact absurd hlast (by decide)
    rw [get_resource_by_path, if_neg hnslash, if_neg hndot]
    apply resolveParts_error_of_nil_mem h hnt
    -- the empty final segment survives the lstrip: either the whole path is
    -- slashes (lstrip yields the empty list, which splits to the empty part)
    -- or the stripped path still ends in a slash
    have hmem : [] ∈ splitSlash (lstripSlashes p) := by
      cases hls : lstripSlashes p with
      | nil => simp [splitSlash]
      | cons c rest =>
        apply nil_mem_splitSlash
        have : (lstripSlashes p).getLast? = some '/' := by
          obtain ⟨t, ht⟩ := List.dropWhile_suffix (l := p) (p := fun c => c = '/')
          have ht2 : t ++ lstripSlashes p = p := ht
          rw [← ht2] at hlast
          rw [List.getLast?_append_of_ne_nil _ (by rw [hls]; simp)] at hlast
          exact hlast
        rw [hls] at this
        exact this
    exact hmem

/-- C2 witness: the amended theorem applied to the concrete hierarchy, whose
containment invariant is checked by evaluation, at the path `/a/`. -/
theorem C2_amended_witness :
    get_resource_by_path exampleHierarchy (chars "/") = .ok (rootEntry exampleHierarchy) ∧
    (∃ e, get_resource_by_path exampleHierarchy (chars "/a/") = .error e) :=
  ⟨(C2_amended exampleHierarchy (by decide)).1,
   (C2_amended exampleHierarchy (by decide)).2.2 (chars "/a/") (by decide) (by decide)⟩

/-! ## Claim C5 -/

/-- C5 counterexample: two `Resource` objects constructed with the same URI
but (necessarily) fresh `ResourceStat` and `Cache` objects.  Their URIs are
equal, yet the dataclass `__eq__` reports them different, and adding both to a
set keeps two elements — refuting both halves of the claim at a concrete
input. -/
theorem C5_counterexample :
    (PyResource.mk "https://pod.example/x" 0 1).uri =
      (PyResource.mk "https://pod.example/x" 2 3).uri ∧
    pyEq ⟨"https://pod.example/x", 0, 1⟩ ⟨"https://pod.example/x", 2, 3⟩ = false ∧
    (setAdd (setAdd [] ⟨"https://pod.example/x", 0, 1⟩)
      ⟨"https://pod.example/x", 2, 3⟩).length = 2 := by
  decide

/-- C5 amended: hashing is on `uri` alone, but the dataclass-generated
equality compares every field — `uri`, plus the `stat` and `content` object
identities — so `r1 == r2` holds exactly when all of them agree (structural
equality of the embedding), equality still implies equal URIs (the hash
contract holds), and inserting two distinct objects that share a URI into a
set yields two elements, not one. -/
theorem C5_amended :
    (∀ a b : PyResource, pyEq a b = true ↔ a = b) ∧
    (∀ a b : PyResource, pyEq a b = true → pyHashKey a = pyHashKey b) ∧
    (∀ r1 r2 : PyResource, r1.uri = r2.uri → r1 ≠ r2 →
      pyEq r1 r2 = false ∧ (setAdd (setAdd [] r1) r2).length = 2) := by
  have heq : ∀ a b : PyResource, pyEq a b = true ↔ a = b := by
    intro a b
    cases a
    cases b
    simp [pyEq, PyResource.mk.injEq, and_assoc]
  refine ⟨heq, ?_, ?_⟩
  · intro a b hab
    rw [(heq a b).mp hab]
  · intro r1 r2 _ hne
    have h12 : pyEq r1 r2 = false := by
      cases hpe : pyEq r1 r2 with
      | false => rfl
      | true => exact absurd ((heq r1 r2).mp hpe) hne
    refine ⟨h12, ?_⟩
    simp [setAdd, h12]

/-- C5 witness: the amended theorem applied to two concrete same-URI
resources. -/
theorem C5_amended_witness :
    pyEq ⟨"u", 0, 1⟩ ⟨"u", 2, 3⟩ = false ∧
    (setAdd (setAdd [] (PyResource.mk "u" 0 1)) ⟨"u", 2, 3⟩).length = 2 :=
  C5_amended.2.2 ⟨"u", 0, 1⟩ ⟨"u", 2, 3⟩ rfl (by decide)

/-! ## Claim C9 -/

/-- C9: decoding the wire form of a URIRef returns it exactly, and quoting
touches only the path component: scheme, authority, query (and fragment) are
preserved verbatim.  The URIRef is taken in split form with its path as a
UTF-8 byte sequence, where `quote`/`unquote` operate; the hypothesis says the
path entries are bytes. -/
theorem C9_roundtrip (u : SplitUri) (h : ∀ b ∈ u.path, b < 256) :
    from_quoted_url (to_quoted_url u) = u ∧
    (to_quoted_url u).scheme = u.scheme ∧
    (to_quoted_url u).netloc = u.netloc ∧
    (to_quoted_url u).query = u.query ∧
    (to_quoted_url u).fragment = u.fragment := by
  refine ⟨?_, rfl, rfl, rfl, rfl⟩
  cases u with
  | mk scheme netloc path query fragment =>
    simp only [to_quoted_url, from_quoted_url, SplitUri.mk.injEq, and_true, true_and]
    exact pyUnquote_pyQuote path h

/-- C9 witness: the round trip evaluated on `https://pod.example/🦖` (path
bytes `2F F0 9F A6 96`), whose quoted form percent-encodes the dinosaur. -/
theorem C9_roundtrip_witness :
    from_quoted_url (to_quoted_url ⟨"https", "pod.example", [47, 240, 159, 166, 150], "", ""⟩) =
      ⟨"https", "pod.example", [47, 240, 159, 166, 150], "", ""⟩ :=
  (C9_roundtrip ⟨"https", "pod.example", [47, 240, 159, 166, 150], "", ""⟩ (by decide)).1

/-! ## Claim C7 -/

/-- C7: `write(path, buf, offset)` on a path that resolves obtains or creates
the resource write buffer, pads it with zero bytes up to
`offset + len(buf)` when shorter, splices `buf` over
`[offset, offset + len(buf))`, returns `len(buf)`, and issues no HTTP
request.  The new buffer `nb` is characterised extensionally: its length is
the maximum of the old length and `offset + len(buf)`; the spliced window is
`buf`; the bytes before `offset` are the old ones, zero-extended; the bytes
from `offset + len(buf)` on are the old ones. -/
theorem C7_write_buffers_locally (h : Hierarchy) (st : AdapterState)
    (path : List Char) (buf : List Nat) (offset : Nat) (entry : Entry)
    (hres : get_resource_by_path h path = .ok entry) :
    ∃ nb : List Nat,
      write h st path buf offset =
        ⟨.ok (buf.length : Int), setWriteBuf st entry.uri (some nb), []⟩ ∧
      nb.length = max ((st.writeBuf entry.uri).getD []).length (offset + buf.length) ∧
      (nb.drop offset).take buf.length = buf ∧
      nb.take offset = ((st.writeBuf entry.uri).getD []).take offset ++
        List.replicate (offset - ((st.writeBuf entry.uri).getD []).length) 0 ∧
      nb.drop (offset + buf.length) =
        ((st.writeBuf entry.uri).getD []).drop (offset + buf.length) := by
  set old := (st.writeBuf entry.uri).getD [] with hold
  set target := offset + buf.length with htarget
  set padded :=
    if old.length < target then old ++ List.replicate (target - old.length) 0 else old
    with hpadded
  have hplen : padded.length = max old.length target := by
    rw [hpadded]
    by_cases hlt : old.length < target
    · rw [if_pos hlt, List.length_append, List.length_replicate]
      omega
    · rw [if_neg hlt]
      omega
  have hoffle : offset ≤ padded.length := by rw [hplen]; omega
  have htklen : (padded.take offset).length = offset := by
    rw [List.length_take]
    omega
  refine ⟨padded.take offset ++ buf ++ padded.drop target, ?_, ?_, ?_, ?_, ?_⟩
  · simp only [write, hres]
    rw [write_buffer_op]
  · simp only [List.append_assoc, List.length_append, List.length_drop, htklen, hplen]
    omega
  · rw [List.append_assoc]
    have hmid : ((padded.take offset ++ (buf ++ padded.drop target)).drop
        (padded.take offset).length).take buf.length = buf := by
      rw [List.drop_left, List.take_left]
    rwa [htklen] at hmid
  · rw [List.append_assoc]
    rw [List.take_append_eq_append_take, htklen]
    rw [show offset - offset = 0 from by omega]
    simp only [List.take_nil, List.take_zero, List.append_nil]
    rw [List.take_take, show min offset offset = offset from by omega]
    rw [hpadded]
    by_cases hlt : old.length < target
    · rw [if_pos hlt, List.take_append_eq_append_take, List.take_replicate]
      rw [show min (offset - old.length) (target - old.length) = offset - old.length
        from by omega]
    · rw [if_neg hlt]
      rw [show offset - old.length = 0 from by omega]
      simp
  · have hablen : (padded.take offset ++ buf).length = target := by
      rw [List.length_append, htklen, htarget]
    have h5 : ((padded.take offset ++ buf) ++ padded.drop target).drop target =
        padded.drop target := by
      have hdl := List.drop_left (padded.take offset ++ buf) (padded.drop target)
      rwa [hablen] at hdl
    rw [h5]
    rw [hpadded]
    by_cases hlt : old.length < target
    · rw [if_pos hlt, List.drop_append_eq_append_drop]
      rw [List.drop_eq_nil_of_le (le_of_lt hlt)]
      rw [List.drop_eq_nil_of_le (le_of_eq (List.length_replicate _ _))]
      rfl
    · rw [if_neg hlt]

/-- C7 witness: writing `[7, 8]` at offset 3 into the empty buffer of the
resource `/f` of the concrete hierarchy: the buffer becomes
`[0, 0, 0, 7, 8]` and no request is made. -/
theorem C7_write_witness :
    ∃ nb : List Nat,
      write exampleHierarchy
          ⟨fun _ => none, fun _ => none, fun _ => 0, fun _ => ""⟩
          (chars "/f") [7, 8] 3 =
        ⟨.ok 2, setWriteBuf ⟨fun _ => none, fun _ => none, fun _ => 0, fun _ => ""⟩
          (chars "p:/f") (some nb), []⟩ ∧
      nb.length = max 0 5 ∧ (nb.drop 3).take 2 = [7, 8] ∧
      nb.take 3 = [] ++ List.replicate 3 0 ∧ nb.drop 5 = [] := by
  have happ := C7_write_buffers_locally exampleHierarchy
    ⟨fun _ => none, fun _ => none, fun _ => 0, fun _ => ""⟩
    (chars "/f") [7, 8] 3 ⟨chars "p:/f", false⟩ (by rfl)
  simpa using happ

/-! ## Claim C3 -/

/-- C3 counterexample: a flush of the pending buffer `hi` (bytes 104 105)
whose detected type equals the previous one, against a server answering 500
to the PUT.  The PUT is attempted, the requestor raises, and the buffer entry
is NOT discarded — refuting the claim that the buffer is discarded
unconditionally after the PUT attempt, whatever its outcome. -/
theorem C3_counterexample :
    (flush_op ⟨fun u => if u = chars "p:/f" then some [104, 105] else none,
        fun _ => none, fun _ => 0, fun _ => "text/plain"⟩
      (chars "p:/f") (fun _ => some "text/plain") 204 500).reqs =
        [.put (chars "p:/f") "text/plain" [104, 105]] ∧
    (flush_op ⟨fun u => if u = chars "p:/f" then some [104, 105] else none,
        fun _ => none, fun _ => 0, fun _ => "text/plain"⟩
      (chars "p:/f") (fun _ => some "text/plain") 204 500).st.writeBuf (chars "p:/f") =
        some [104, 105] ∧
    (flush_op ⟨fun u => if u = chars "p:/f" then some [104, 105] else none,
        fun _ => none, fun _ => 0, fun _ => "text/plain"⟩
      (chars "p:/f") (fun _ => some "text/plain") 204 500).ret =
        .error (.http 500) := by
  refine ⟨by rfl, by rfl, by rfl⟩

/-- C3 amended: on `flush` with a pending non-empty buffer, the content type
is re-detected from the full buffer at offset 0.  If it is unchanged, no
DELETE is issued and the expected PUT status is 204; if it changed, a DELETE
precedes the PUT and the expected status is 201 — but the DELETE response is
only ignored when its status is below 300: an error status raises out of the
requestor, aborting the flush before the PUT with the buffer left in place.
When the PUT is reached and returns (status below 300), the stat size is set
to the buffer length exactly when the status equals the expected one, and the
buffer entry is discarded whatever that returned status is; a PUT error
status (300 and above) raises, and then the buffer entry is retained. -/
theorem C3_flush_amended (st : AdapterState) (uri : Uri)
    (magic : List Nat → Option String) (dS pS : Int) (content : List Nat)
    (hbuf : st.writeBuf uri = some content) (_hne : content ≠ [])
    (ct : String) (hct : ct = update_mime_type_from_content 0 (st.ctype uri) content magic) :
    (flush_op st uri magic dS pS).st.ctype uri = ct ∧
    (ct = st.ctype uri →
      (flush_op st uri magic dS pS).reqs = [.put uri ct content]) ∧
    (ct ≠ st.ctype uri →
      (flush_op st uri magic dS pS).reqs.head? = some (.delete uri)) ∧
    (ct ≠ st.ctype uri → dS < 300 →
      (flush_op st uri magic dS pS).reqs = [.delete uri, .put uri ct content]) ∧
    (ct ≠ st.ctype uri → ¬ dS < 300 →
      (flush_op st uri magic dS pS).reqs = [.delete uri] ∧
      (flush_op st uri magic dS pS).st.writeBuf uri = some content ∧
      ∃ e, (flush_op st uri magic dS pS).ret = .error e) ∧
    ((ct ≠ st.ctype uri → dS < 300) → pS < 300 →
      (flush_op st uri magic dS pS).ret = .ok 0 ∧
      (flush_op st uri magic dS pS).st.writeBuf uri = none ∧
      (flush_op st uri magic dS pS).st.size uri =
        (if pS = (if ct = st.ctype uri then 204 else 201) then (content.length : Int)
         else st.size uri)) ∧
    ((ct ≠ st.ctype uri → dS < 300) → ¬ pS < 300 →
      (∃ e, (flush_op st uri magic dS pS).ret = .error e) ∧
      (flush_op st uri magic dS pS).st.writeBuf uri = some content) := by
  by_cases hc : ct = st.ctype uri
  · -- unchanged content type: no DELETE, expected 204
    by_cases hp : pS < 300
    · have hev : flush_op st uri magic dS pS =
          ⟨.ok 0, setWriteBuf (if pS = 204 then
              setSize (setCtype st uri ct) uri content.length
            else setCtype st uri ct) uri none, [.put uri ct content]⟩ := by
        simp only [flush_op, hbuf, ← hct, if_neg (not_not_intro hc), raise_of_lt_300 pS hp]
      refine ⟨?_, fun _ => by rw [hev], fun hcc => absurd hc hcc,
        fun hcc => absurd hc hcc, fun hcc => absurd hc hcc, ?_, fun _ hpp => absurd hp hpp⟩
      · rw [hev]
        by_cases h204 : pS = 204 <;>
          simp [h204, setWriteBuf, setSize, setCtype]
      · intro _ _
        rw [hev]
        by_cases h204 : pS = 204 <;>
          simp [h204, hc, setWriteBuf, setSize, setCtype]
    · obtain ⟨e, he⟩ := raise_of_not_lt_300 pS hp
      have hev : flush_op st uri magic dS pS =
          ⟨.error e, setCtype st uri ct, [.put uri ct content]⟩ := by
        simp only [flush_op, hbuf, ← hct, if_neg (not_not_intro hc), he]
      refine ⟨by rw [hev]; simp [setCtype], fun _ => by rw [hev], fun hcc => absurd hc hcc,
        fun hcc => absurd hc hcc, fun hcc => absurd hc hcc,
        fun _ hpp => absurd hpp hp, fun _ _ => ?_⟩
      rw [hev]
      exact ⟨⟨e, rfl⟩, by simp [setCtype, hbuf]⟩
  · -- changed content type: DELETE first, expected 201
    by_cases hd : dS < 300
    · by_cases hp : pS < 300
      · have hev : flush_op st uri magic dS pS =
            ⟨.ok 0, setWriteBuf (if pS = 201 then
                setSize (setCtype st uri ct) uri content.length
              else setCtype st uri ct) uri none,
             [.delete uri, .put uri ct content]⟩ := by
          simp only [flush_op, hbuf, ← hct, if_pos hc, raise_of_lt_300 dS hd,
            raise_of_lt_300 pS hp]
        refine ⟨?_, fun hcc => absurd hcc hc, fun _ => by rw [hev]; rfl,
          fun _ _ => by rw [hev], fun _ hdd => absurd hd hdd, ?_, fun _ hpp => absurd hp hpp⟩
        · rw [hev]
          by_cases h201 : pS = 201 <;>
            simp [h201, setWriteBuf, setSize, setCtype]
        · intro _ _
          rw [hev]
          by_cases h201 : pS = 201 <;>
            simp [h201, hc, setWriteBuf, setSize, setCtype]
      · obtain ⟨e, he⟩ := raise_of_not_lt_300 pS hp
        have hev : flush_op st uri magic dS pS =
            ⟨.error e, setCtype st uri ct, [.delete uri, .put uri ct content]⟩ := by
          simp only [flush_op, hbuf, ← hct, if_pos hc, raise_of_lt_300 dS hd, he]
        refine ⟨by rw [hev]; simp [setCtype], fun hcc => absurd hcc hc,
          fun _ => by rw [hev]; rfl, fun _ _ => by rw [hev],
          fun _ hdd => absurd hd hdd, fun _ hpp => absurd hpp hp, fun _ _ => ?_⟩
        rw [hev]
        exact ⟨⟨e, rfl⟩, by simp [setCtype, hbuf]⟩
    · obtain ⟨e, he⟩ := raise_of_not_lt_300 dS hd
      have hev : flush_op st uri magic dS pS =
          ⟨.error e, setCtype st uri ct, [.delete uri]⟩ := by
        simp only [flush_op, hbuf, ← hct, if_pos hc, he]
      refine ⟨by rw [hev]; simp [setCtype], fun hcc => absurd hcc hc,
        fun _ => by rw [hev]; rfl, fun _ hdd => absurd hdd hd, fun _ _ => ?_,
        fun hdd _ => absurd (hdd hc) hd, fun hdd _ => absurd (hdd hc) hd⟩
      rw [hev]
      exact ⟨rfl, by simp [setCtype, hbuf], ⟨e, rfl⟩⟩

/-- C3 witness: the amended theorem applied to the buffer `hi` of `p:/f`
whose type changes from `text/plain` to `text/html`, a DELETE answered 204
and a PUT answered 201: the DELETE precedes the PUT, the size is updated and
the buffer is discarded. -/
theorem C3_flush_witness :
    (flush_op ⟨fun u => if u = chars "p:/f" then some [104, 105] else none,
        fun _ => none, fun _ => 0, fun _ => "text/plain"⟩
      (chars "p:/f") (fun _ => some "text/html") 204 201).reqs =
        [.delete (chars "p:/f"), .put (chars "p:/f") "text/html" [104, 105]] ∧
    (flush_op ⟨fun u => if u = chars "p:/f" then some [104, 105] else none,
        fun _ => none, fun _ => 0, fun _ => "text/plain"⟩
      (chars "p:/f") (fun _ => some "text/html") 204 201).ret = .ok 0 ∧
    (flush_op ⟨fun u => if u = chars "p:/f" then some [104, 105] else none,
        fun _ => none, fun _ => 0, fun _ => "text/plain"⟩
      (chars "p:/f") (fun _ => some "text/html") 204 201).st.writeBuf (chars "p:/f") =
        none := by
  have happ := C3_flush_amended
    ⟨fun u => if u = chars "p:/f" then some [104, 105] else none,
      fun _ => none, fun _ => 0, fun _ => "text/plain"⟩
    (chars "p:/f") (fun _ => some "text/html") 204 201 [104, 105]
    (by simp) (by simp) "text/html" (by rfl)
  refine ⟨happ.2.2.2.1 (by simp) (by norm_num), (happ.2.2.2.2.2.1 (fun _ => by norm_num)
    (by norm_num)).1, (happ.2.2.2.2.2.1 (fun _ => by norm_num) (by norm_num)).2.1⟩

/-! ## Claim C8 -/

/-- Evaluation of `read` at offset 0 against a 200 response: the cache is
bypassed, one GET is issued, and content type, size and read cache are
refreshed from the response. -/
theorem read_offset0_200 (h : Hierarchy) (st : AdapterState) (path : List Char)
    (n : Nat) (sv : ServerResp) (entry : Entry)
    (hres : get_resource_by_path h path = .ok entry) (hstat : sv.status = 200) :
    read h st path n 0 sv = ⟨.ok (sv.body.take n),
      read_refresh_state st entry.uri sv, [.get entry.uri]⟩ := by
  have h200 : raise_exception_for_failed_requests 200 = .ok 200 := rfl
  simp [read, hres, read_op, hstat, h200]

/-- C8 counterexample: the resource `p:/f` has an EXISTING but EMPTY write
buffer (as `write(p, b"", 0)` leaves behind), and `truncate` is called with
size 1 while the server holds the two bytes `7 8`.  The claim says the
existing buffer is truncated in place (to `[]`, with no request); the code
instead tests the buffer for Python truthiness, finds the empty bytearray
falsy, reads from the server (one GET) and splices the one-byte prefix `[7]`
into the write buffer. -/
theorem C8_counterexample :
    (truncate exampleHierarchy
      ⟨fun u => if u = chars "p:/f" then some [] else none,
        fun _ => none, fun _ => 0, fun _ => ""⟩
      (chars "/f") 1 ⟨200, [7, 8], "text/plain"⟩).2.1.writeBuf (chars "p:/f") =
        some [7] ∧
    (truncate exampleHierarchy
      ⟨fun u => if u = chars "p:/f" then some [] else none,
        fun _ => none, fun _ => 0, fun _ => ""⟩
      (chars "/f") 1 ⟨200, [7, 8], "text/plain"⟩).2.2 = [.get (chars "p:/f")] ∧
    some [7] ≠ some (List.take 1 ([] : List Nat)) := by
  refine ⟨by rfl, by rfl, by simp⟩

/-- Splicing `buf` at offset 0 into an empty (or absent) buffer yields `buf`
itself. -/
theorem write_buffer_op_on_empty (st2 : AdapterState) (uri : Uri) (buf2 : List Nat)
    (hempty2 : (st2.writeBuf uri).getD [] = []) :
    (write_buffer_op st2 uri buf2 0).st.writeBuf uri = some buf2 := by
  simp only [write_buffer_op, hempty2, setWriteBuf, if_pos rfl]
  by_cases hb : 0 < buf2.length
  · simp [hb, List.drop_replicate]
  · have hnil : buf2 = [] := by
      cases buf2 with
      | nil => rfl
      | cons a t => simp at hb
    subst hnil
    simp

/-- C8 amended: `truncate` rejects a trailing slash and a negative size with
`-EINVAL`.  If the write buffer entry is truthy — present AND nonempty — it
is truncated in place with the stat size set, and no request is made.
Otherwise, for a positive size, `size + 1` bytes are read from the server
(one GET): fewer than `size` bytes yield `-EINVAL` with no zero padding;
exactly `size` bytes make the code skip the write entirely (the size is
already correct); more than `size` bytes make it splice the `size`-byte
prefix into the write buffer and set the stat size — but no flush follows, so
no PUT is issued and the content stays buffered.  For size 0 the empty
content is written into the buffer unconditionally. -/
theorem C8_truncate_amended (h : Hierarchy) (st : AdapterState) (path : List Char)
    (size : Int) (sv : ServerResp) (entry : Entry)
    (hres : get_resource_by_path h path = .ok entry) :
    (endsWithSlash path = true → truncate h st path size sv = (-EINVAL, st, [])) ∧
    (size < 0 → truncate h st path size sv = (-EINVAL, st, [])) ∧
    (endsWithSlash path = false → ¬ size < 0 →
      truthyBytes (st.writeBuf entry.uri) = true →
      truncate h st path size sv = (0, setSize (setWriteBuf st entry.uri
        (some (((st.writeBuf entry.uri).getD []).take size.toNat))) entry.uri size, [])) ∧
    (endsWithSlash path = false → 0 < size →
      truthyBytes (st.writeBuf entry.uri) = false → sv.status = 200 →
      (((sv.body.take (size.toNat + 1)).length : Int) < size →
        (truncate h st path size sv).1 = -EINVAL ∧
        (truncate h st path size sv).2.2 = [.get entry.uri]) ∧
      (((sv.body.take (size.toNat + 1)).length : Int) = size →
        (truncate h st path size sv).1 = 0 ∧
        (truncate h st path size sv).2.2 = [.get entry.uri] ∧
        (truncate h st path size sv).2.1.writeBuf = st.writeBuf) ∧
      (size < ((sv.body.take (size.toNat + 1)).length : Int) →
        (truncate h st path size sv).1 = 0 ∧
        (truncate h st path size sv).2.2 = [.get entry.uri] ∧
        (truncate h st path size sv).2.1.writeBuf entry.uri =
          some ((sv.body.take (size.toNat + 1)).take size.toNat) ∧
        (truncate h st path size sv).2.1.size entry.uri = size)) ∧
    (endsWithSlash path = false → size = 0 →
      truthyBytes (st.writeBuf entry.uri) = false →
      (truncate h st path size sv).1 = 0 ∧
      (truncate h st path size sv).2.2 = [] ∧
      (truncate h st path size sv).2.1.writeBuf entry.uri = some [] ∧
      (truncate h st path size sv).2.1.size entry.uri = 0) := by
  refine ⟨?_, ?_, ?_, ?_, ?_⟩
  · intro hend
    rw [truncate, if_pos hend]
  · intro hsz
    rw [truncate]
    by_cases hend : endsWithSlash path = true
    · rw [if_pos hend]
    · rw [if_neg hend, if_pos hsz]
  · intro hend hsz htr
    rw [truncate, if_neg (by rw [hend]; simp), if_neg hsz]
    simp only [hres, htr, if_pos]
  · intro hend hsz htr hstat
    have hszne : ¬ size < 0 := by omega
    have hsznz : size ≠ 0 := by omega
    have hread := read_offset0_200 h st path (size.toNat + 1) sv entry hres hstat
    have hbase : truncate h st path size sv =
        (if ((sv.body.take (size.toNat + 1)).length : Int) < size then
          (-EINVAL, read_refresh_state st entry.uri sv, [.get entry.uri])
         else if size ≠ ((sv.body.take (size.toNat + 1)).length : Int) then
          (0, (write h (setSize (read_refresh_state st entry.uri sv) entry.uri size) path
                ((sv.body.take (size.toNat + 1)).take size.toNat) 0).st,
            [.get entry.uri] ++
              (write h (setSize (read_refresh_state st entry.uri sv) entry.uri size) path
                ((sv.body.take (size.toNat + 1)).take size.toNat) 0).reqs)
         else (0, read_refresh_state st entry.uri sv, [.get entry.uri])) := by
      rw [truncate, if_neg (by rw [hend]; simp), if_neg hszne]
      simp only [hres, htr, Bool.false_eq_true, if_false, if_pos hsznz, hread]
      rw [show ∀ st2 buf2, (write h st2 path buf2 0).ret = .ok (buf2.length : Int) from
        fun st2 buf2 => by simp only [write, hres, write_buffer_op]]
    have hwreqs : ∀ st2 : AdapterState, ∀ buf2 : List Nat,
        (write h st2 path buf2 0).reqs = [] := by
      intro st2 buf2
      simp only [write, hres, write_buffer_op]
    refine ⟨?_, ?_, ?_⟩
    · intro hlt
      rw [hbase, if_pos hlt]
      exact ⟨rfl, rfl⟩
    · intro heqq
      rw [hbase, if_neg (by omega : ¬ ((sv.body.take (size.toNat + 1)).length : Int) < size),
        if_neg (by omega : ¬ size ≠ ((sv.body.take (size.toNat + 1)).length : Int))]
      exact ⟨rfl, rfl, rfl⟩
    · intro hgt
      rw [hbase, if_neg (by omega : ¬ ((sv.body.take (size.toNat + 1)).length : Int) < size),
        if_pos (by omega : size ≠ ((sv.body.take (size.toNat + 1)).length : Int))]
      have hempty : (((setSize (read_refresh_state st entry.uri sv) entry.uri size)).writeBuf
          entry.uri).getD [] = [] := by
        simp only [setSize, read_refresh_state, setReadCache, setCtype]
        exact truthyBytes_false_getD _ htr
      refine ⟨rfl, ?_, ?_, ?_⟩
      · rw [hwreqs]
        rfl
      · show (write h _ path _ 0).st.writeBuf entry.uri = _
        simp only [write, hres]
        exact write_buffer_op_on_empty _ _ _ hempty
      · simp only [write, hres, write_buffer_op, setWriteBuf, setSize]
        simp
  · intro hend hsz htr
    have hszne : ¬ size < 0 := by omega
    have hbase : truncate h st path size sv =
        (0, (write h (setSize st entry.uri 0) path [] 0).st,
          (write h (setSize st entry.uri 0) path [] 0).reqs) := by
      rw [truncate, if_neg (by rw [hend]; simp), if_neg hszne]
      simp only [hres, htr, Bool.false_eq_true, if_false, hsz]
      rw [show ∀ st2 buf2, (write h st2 path buf2 0).ret = .ok (buf2.length : Int) from
        fun st2 buf2 => by simp only [write, hres, write_buffer_op]]
      simp
    have hempty : (((setSize st entry.uri 0)).writeBuf entry.uri).getD [] = [] := by
      simp only [setSize]
      exact truthyBytes_false_getD _ htr
    rw [hbase]
    refine ⟨rfl, ?_, ?_, ?_⟩
    · simp only [write, hres, write_buffer_op]
    · show (write h _ path _ 0).st.writeBuf entry.uri = _
      simp only [write, hres]
      exact write_buffer_op_on_empty _ _ _ hempty
    · simp only [write, hres, write_buffer_op, setWriteBuf, setSize]
      simp

/-- C8 witness: the amended theorem at the concrete hierarchy: truncating
`/f` to size 1 with no write buffer while the server holds `7 8` reads once,
buffers the prefix `[7]` and issues no PUT. -/
theorem C8_truncate_witness :
    (truncate exampleHierarchy ⟨fun _ => none, fun _ => none, fun _ => 0, fun _ => ""⟩
      (chars "/f") 1 ⟨200, [7, 8], "text/plain"⟩).1 = 0 ∧
    (truncate exampleHierarchy ⟨fun _ => none, fun _ => none, fun _ => 0, fun _ => ""⟩
      (chars "/f") 1 ⟨200, [7, 8], "text/plain"⟩).2.2 = [.get (chars "p:/f")] ∧
    (truncate exampleHierarchy ⟨fun _ => none, fun _ => none, fun _ => 0, fun _ => ""⟩
      (chars "/f") 1 ⟨200, [7, 8], "text/plain"⟩).2.1.writeBuf (chars "p:/f") =
      some (([7, 8] : List Nat).take 1) := by
  have happ := (C8_truncate_amended exampleHierarchy
    ⟨fun _ => none, fun _ => none, fun _ => 0, fun _ => ""⟩
    (chars "/f") 1 ⟨200, [7, 8], "text/plain"⟩ ⟨chars "p:/f", false⟩
    (by rfl)).2.2.2.1 (by rfl) (by norm_num) (by rfl) (by rfl)
  have hgt := happ.2.2 (by norm_num)
  exact ⟨hgt.1, hgt.2.1, by simpa using hgt.2.2.1⟩

/-! ## Claim C4 -/

/-- C4 counterexample: with a fresh token cache and `SOLIDFS_CLIENT_ID`
unset, token acquisition does return nothing — but the outbound headers of
`SolidRequest.request` still carry an `Authorization` header, whose value is
the f-string rendering `Bearer None`, refuting the claim that the header is
absent when no token exists. -/
theorem C4_counterexample :
    authenticate_with_client_credentials ⟨none, none⟩ 0 none (some "s") (some "u")
      ⟨200, "tok", 60⟩ = .ok (⟨none, none⟩, none) ∧
    dictGet (request_headers "sid" none [] []) "Authorization" = some "Bearer None" ∧
    dictGet (request_headers "sid" none [] []) "Authorization" ≠ none := by
  refine ⟨by rfl, by rfl, by simp [request_headers, dictMerge, dictGet, common_headers,
    get_auth_headers, pyStr]⟩

/-- C4 amended: when `SOLIDFS_CLIENT_ID` is unset or empty (and no token is
cached), token acquisition returns nothing, but the system does not drop the
`Authorization` header: `_get_auth_headers` builds it unconditionally, so
every request carries `Authorization: Bearer <token>` — the literal text
`Bearer None` when there is no token — unless a caller-supplied header
overrides it. -/
theorem C4_amended (st : AuthState) (now : Int) (cs tu : Option String)
    (resp : TokenResponse) (hfresh : st.cached_token_expiry = none) :
    (∀ cid : Option String, cid.getD "" = "" →
      authenticate_with_client_credentials st now cid cs tu resp = .ok (st, none)) ∧
    (∀ token : Option String,
      dictGet (get_auth_headers token) "Authorization" = some ("Bearer " ++ pyStr token)) ∧
    (∀ sid : String, ∀ token : Option String,
      dictGet (request_headers sid token [] []) "Authorization" =
        some ("Bearer " ++ pyStr token)) ∧
    "Bearer " ++ pyStr (none : Option String) = "Bearer None" := by
  refine ⟨?_, ?_, ?_, rfl⟩
  · intro cid hcid
    unfold authenticate_with_client_credentials
    rw [if_pos (Or.inl (by rw [hfresh]; rfl))]
    have hlen : (cid.getD "").length = 0 := by rw [hcid]; rfl
    simp [hlen]
  · intro token
    rfl
  · intro sid token
    simp [request_headers, dictMerge, dictGet, common_headers, get_auth_headers]

/-- C4 witness: the amended theorem applied at a fresh cache, with the empty
client id and no token. -/
theorem C4_amended_witness :
    authenticate_with_client_credentials ⟨none, none⟩ 5 (some "") (some "s") (some "u")
      ⟨200, "tok", 60⟩ = .ok (⟨none, none⟩, none) ∧
    dictGet (request_headers "sid" none [] []) "Authorization" = some ("Bearer " ++ pyStr none) :=
  ⟨(C4_amended ⟨none, none⟩ 5 (some "s") (some "u") ⟨200, "tok", 60⟩ rfl).1 (some "") rfl,
   (C4_amended ⟨none, none⟩ 5 (some "s") (some "u") ⟨200, "tok", 60⟩ rfl).2.2.1 "sid" none⟩

/-! ## Claim C6 -/

/-- C6: when the GET that enumerates a container answers 403 or 401, the
typed exception the requestor raises is caught, `contains` is recorded as the
empty set, the enumeration returns it without error after exactly one
request, `readdir` built on that membership yields exactly `.` and `..`, and
every subsequent enumeration — whatever the server would now answer — returns
the recorded empty membership with zero further requests. -/
theorem C6_forbidden_degrades_gracefully (c : ContainerObj) (status : Int)
    (parsed : List Entry) (hnone : c.contains = none)
    (hstat : status = 403 ∨ status = 401) :
    (get_contained_resources c status parsed).1 = .ok [] ∧
    (get_contained_resources c status parsed).2.1.contains = some [] ∧
    (get_contained_resources c status parsed).2.2 = 1 ∧
    readdir_names c.uri [] = [chars ".", chars ".."] ∧
    (∀ (status2 : Int) (parsed2 : List Entry),
      get_contained_resources (get_contained_resources c status parsed).2.1 status2 parsed2 =
        (.ok [], (get_contained_resources c status parsed).2.1, 0)) := by
  have hmain : get_contained_resources c status parsed =
      (.ok [], { c with contains := some [] }, 1) := by
    rcases hstat with h4 | h4 <;>
      (subst h4; rw [get_contained_resources, hnone]; rfl)
  refine ⟨by rw [hmain], by rw [hmain], by rw [hmain], by rfl, ?_⟩
  intro status2 parsed2
  rw [hmain]
  rw [get_contained_resources]

/-! ## Claim C10 -/

/-- C10: neither `write` nor `flush` ever removes or replaces a read-cache
entry — the whole-resource read cache is only overwritten by a `read` at
offset 0 (on a 200 response).  Consequently, after `write(p, b, 0)` and a
flush of it, a `read(p, size, offset)` with `offset > 0` whose URI has a
non-empty cache entry `c` answers the slice `c[offset : offset + size]` of
the body cached BEFORE the flush — not a slice of `b` — with no request. -/
theorem C10_read_cache_frame :
    (∀ (st : AdapterState) (uri : Uri) (buf : List Nat) (off : Nat),
      (write_buffer_op st uri buf off).st.readCache = st.readCache) ∧
    (∀ (st : AdapterState) (uri : Uri) (m : List Nat → Option String) (dS pS : Int),
      (flush_op st uri m dS pS).st.readCache = st.readCache) ∧
    (∀ (st : AdapterState) (uri : Uri) (size off : Nat) (sv : ServerResp)
      (c : List Nat), off ≠ 0 → st.readCache uri = some c → c ≠ [] →
      read_op st uri size off sv = ⟨.ok ((c.drop off).take size), st, []⟩) ∧
    (∀ (st : AdapterState) (uri : Uri) (size : Nat) (sv : ServerResp),
      sv.status = 200 → (read_op st uri size 0 sv).st.readCache uri = some sv.body) ∧
    (∀ (h : Hierarchy) (st : AdapterState) (p : List Char) (b : List Nat)
      (m : List Nat → Option String) (dS pS : Int) (size off : Nat)
      (sv : ServerResp) (entry : Entry) (c : List Nat),
      get_resource_by_path h p = .ok entry →
      st.readCache entry.uri = some c → c ≠ [] → off ≠ 0 →
      read h (flush h (write h st p b 0).st p m dS pS).st p size off sv =
        ⟨.ok ((c.drop off).take size),
         (flush h (write h st p b 0).st p m dS pS).st, []⟩) := by
  have hread_cached : ∀ (st : AdapterState) (uri : Uri) (size off : Nat)
      (sv : ServerResp) (c : List Nat), off ≠ 0 → st.readCache uri = some c →
      c ≠ [] → read_op st uri size off sv = ⟨.ok ((c.drop off).take size), st, []⟩ := by
    intro st uri size off sv c hoff hc hcne
    rw [read_op, if_pos ⟨hoff, by rw [hc]; simpa [truthyBytes] using hcne⟩, hc]
    rfl
  refine ⟨fun st uri buf off => write_buffer_op_readCache st uri buf off,
    fun st uri m dS pS => flush_op_readCache st uri m dS pS, hread_cached, ?_, ?_⟩
  · intro st uri size sv hstat
    have h200 : raise_exception_for_failed_requests 200 = .ok 200 := rfl
    simp [read_op, hstat, h200, read_refresh_state, setReadCache]
  · intro h st p b m dS pS size off sv entry c hres hc hcne hoff
    have hw : (write h st p b 0).st.readCache = st.readCache := by
      simp only [write, hres]
      exact write_buffer_op_readCache _ _ _ _
    have hf : (flush h (write h st p b 0).st p m dS pS).st.readCache =
        (write h st p b 0).st.readCache := by
      simp only [flush, hres]
      cases hfr : flush_op (write h st p b 0).st entry.uri m dS pS with
      | mk ret st2 reqs =>
        have := flush_op_readCache (write h st p b 0).st entry.uri m dS pS
        rw [hfr] at this
        exact this
    have hc2 : (flush h (write h st p b 0).st p m dS pS).st.readCache entry.uri =
        some c := by
      rw [hf, hw, hc]
    simp only [read, hres]
    exact hread_cached _ _ size off sv c hoff hc2 hcne

/-- C10 witness: with the cache of `p:/f` holding `9 9 9 9`, writing the two
bytes `7 8` at offset 0 and flushing them (detection unchanged, PUT answered
204), a read of two bytes at offset 1 returns `9 9` from the pre-flush cache
and issues no request. -/
theorem C10_read_cache_witness :
    read exampleHierarchy
      (flush exampleHierarchy
        (write exampleHierarchy
          ⟨fun _ => none, fun u => if u = chars "p:/f" then some [9, 9, 9, 9] else none,
            fun _ => 0, fun _ => "text/plain"⟩
          (chars "/f") [7, 8] 0).st
        (chars "/f") (fun _ => some "text/plain") 204 204).st
      (chars "/f") 2 1 ⟨200, [7, 8], "text/plain"⟩ =
    ⟨.ok ((([9, 9, 9, 9] : List Nat).drop 1).take 2),
     (flush exampleHierarchy
        (write exampleHierarchy
          ⟨fun _ => none, fun u => if u = chars "p:/f" then some [9, 9, 9, 9] else none,
            fun _ => 0, fun _ => "text/plain"⟩
          (chars "/f") [7, 8] 0).st
        (chars "/f") (fun _ => some "text/plain") 204 204).st, []⟩ :=
  C10_read_cache_frame.2.2.2.2 exampleHierarchy
    ⟨fun _ => none, fun u => if u = chars "p:/f" then some [9, 9, 9, 9] else none,
      fun _ => 0, fun _ => "text/plain"⟩
    (chars "/f") [7, 8] (fun _ => some "text/plain") 204 204 2 1
    ⟨200, [7, 8], "text/plain"⟩ ⟨chars "p:/f", false⟩ [9, 9, 9, 9]
    (by rfl) (by rfl) (by simp) (by simp)

/-- C6 witness: the theorem applied to a concrete unpopulated container and a
403 answer. -/
theorem C6_forbidden_witness :
    (get_contained_resources ⟨chars "p:/private/", none⟩ 403 []).1 = .ok [] ∧
    readdir_names (chars "p:/private/") [] = [chars ".", chars ".."] :=
  ⟨(C6_forbidden_degrades_gracefully ⟨chars "p:/private/", none⟩ 403 [] rfl (Or.inl rfl)).1,
   (C6_forbidden_degrades_gracefully ⟨chars "p:/private/", none⟩ 403 [] rfl (Or.inl rfl)).2.2.2.1⟩

end SolidFS
